import Mathlib

/-!
Verification of the polyhedral mass-properties engine of
`Physika_Src/Physika_Dynamics/Rigid_Body/rigid_body.h` (class `InertiaTensor`).

The repository provides the class header: member fields
(`body_inertia_tensor_`, `spatial_inertia_tensor_`, the axis roles `A`, `B`,
`C`, the projection integrals `P1 .. Pbbb`, the face integrals `Fa .. Fcca`,
the volume integrals `T0, T1, T2, TP`) and the declarations of `setBody`,
`rotate`, `compProjectionIntegrals`, `compFaceIntegrals`,
`compVolumeIntegrals`.  The bodies of those member functions are not part of
the provided sources, so they are modelled from the specification (the
standard reduction of volume integrals of a closed triangulated surface to
per-face projection integrals, plus the similarity transform for the spatial
tensor).  The scalar type parameter is instantiated with `ℚ` so every
definition is executable and every equality decidable.
-/

namespace Physika

/-- A 3-vector of rationals (the `Vector<Scalar,3>` of the source,
instantiated at `Scalar = ℚ`). -/
structure Vec3 where
  x : ℚ
  y : ℚ
  z : ℚ
  deriving DecidableEq, Repr

namespace Vec3

/-- Component access by axis index (`v[0]`, `v[1]`, `v[2]` in the source). -/
def nth (v : Vec3) : Fin 3 → ℚ
  | 0 => v.x
  | 1 => v.y
  | 2 => v.z

/-- Functional update of one component (`v[i] = q` in the source). -/
def set (v : Vec3) : Fin 3 → ℚ → Vec3
  | 0, q => { v with x := q }
  | 1, q => { v with y := q }
  | 2, q => { v with z := q }

/-- Componentwise subtraction. -/
def sub (u v : Vec3) : Vec3 := ⟨u.x - v.x, u.y - v.y, u.z - v.z⟩

/-- Componentwise addition. -/
def add (u v : Vec3) : Vec3 := ⟨u.x + v.x, u.y + v.y, u.z + v.z⟩

/-- Dot product. -/
def dot (u v : Vec3) : ℚ := u.x * v.x + u.y * v.y + u.z * v.z

/-- Cross product. -/
def cross (u v : Vec3) : Vec3 :=
  ⟨u.y * v.z - u.z * v.y, u.z * v.x - u.x * v.z, u.x * v.y - u.y * v.x⟩

/-- The zero vector. -/
def zero : Vec3 := ⟨0, 0, 0⟩

/-- Componentwise scaling by a scale vector (per-axis scale of `setBody`). -/
def scaleBy (s v : Vec3) : Vec3 := ⟨s.x * v.x, s.y * v.y, s.z * v.z⟩

end Vec3

/-- A 3×3 matrix of rationals (the `SquareMatrix<Scalar,3>` of the source,
instantiated at `Scalar = ℚ`). -/
structure Mat3 where
  m00 : ℚ
  m01 : ℚ
  m02 : ℚ
  m10 : ℚ
  m11 : ℚ
  m12 : ℚ
  m20 : ℚ
  m21 : ℚ
  m22 : ℚ
  deriving DecidableEq, Repr

namespace Mat3

/-- Entry access (`M(i,j)` in the source). -/
def get (M : Mat3) : Fin 3 → Fin 3 → ℚ
  | 0, 0 => M.m00
  | 0, 1 => M.m01
  | 0, 2 => M.m02
  | 1, 0 => M.m10
  | 1, 1 => M.m11
  | 1, 2 => M.m12
  | 2, 0 => M.m20
  | 2, 1 => M.m21
  | 2, 2 => M.m22

/-- Matrix product. -/
def mul (P Q : Mat3) : Mat3 where
  m00 := P.m00 * Q.m00 + P.m01 * Q.m10 + P.m02 * Q.m20
  m01 := P.m00 * Q.m01 + P.m01 * Q.m11 + P.m02 * Q.m21
  m02 := P.m00 * Q.m02 + P.m01 * Q.m12 + P.m02 * Q.m22
  m10 := P.m10 * Q.m00 + P.m11 * Q.m10 + P.m12 * Q.m20
  m11 := P.m10 * Q.m01 + P.m11 * Q.m11 + P.m12 * Q.m21
  m12 := P.m10 * Q.m02 + P.m11 * Q.m12 + P.m12 * Q.m22
  m20 := P.m20 * Q.m00 + P.m21 * Q.m10 + P.m22 * Q.m20
  m21 := P.m20 * Q.m01 + P.m21 * Q.m11 + P.m22 * Q.m21
  m22 := P.m20 * Q.m02 + P.m21 * Q.m12 + P.m22 * Q.m22

/-- Transpose. -/
def transpose (M : Mat3) : Mat3 where
  m00 := M.m00
  m01 := M.m10
  m02 := M.m20
  m10 := M.m01
  m11 := M.m11
  m12 := M.m21
  m20 := M.m02
  m21 := M.m12
  m22 := M.m22

/-- Diagonal matrix. -/
def diag (a b c : ℚ) : Mat3 := ⟨a, 0, 0, 0, b, 0, 0, 0, c⟩

/-- The quadratic form `vᵀ M v` of a matrix. -/
def quadForm (M : Mat3) (v : Vec3) : ℚ :=
  v.x * (M.m00 * v.x + M.m01 * v.y + M.m02 * v.z) +
  v.y * (M.m10 * v.x + M.m11 * v.y + M.m12 * v.z) +
  v.z * (M.m20 * v.x + M.m21 * v.y + M.m22 * v.z)

end Mat3

/-- A quaternion (the `Quaternion<Scalar>` of the source, instantiated at
`Scalar = ℚ`), `w` the scalar part and `(x, y, z)` the vector part. -/
structure Quat where
  w : ℚ
  x : ℚ
  y : ℚ
  z : ℚ
  deriving DecidableEq, Repr

namespace Quat

/-- Squared norm `w² + x² + y² + z²`. -/
def normSq (q : Quat) : ℚ := q.w * q.w + q.x * q.x + q.y * q.y + q.z * q.z

/-- A unit-norm orientation quaternion. -/
def IsUnit (q : Quat) : Prop := q.normSq = 1

instance (q : Quat) : Decidable q.IsUnit := by unfold Quat.IsUnit; infer_instance

/-- The identity orientation. -/
def identity : Quat := ⟨1, 0, 0, 0⟩

/-- Quaternion inverse, `conjugate / normSq` (equal to the conjugate for a
unit quaternion). -/
def inverse (q : Quat) : Quat :=
  ⟨q.w / q.normSq, -q.x / q.normSq, -q.y / q.normSq, -q.z / q.normSq⟩

/-- Modelled from the spec: `rotate` "builds the corresponding 3×3 rotation
matrix `R`" from the orientation quaternion; this is the standard
quaternion-to-rotation-matrix formula (the implementation of
`Quaternion<Scalar>` is not among the provided sources). -/
def toMatrix (q : Quat) : Mat3 where
  m00 := 1 - 2 * (q.y * q.y + q.z * q.z)
  m01 := 2 * (q.x * q.y - q.w * q.z)
  m02 := 2 * (q.x * q.z + q.w * q.y)
  m10 := 2 * (q.x * q.y + q.w * q.z)
  m11 := 1 - 2 * (q.x * q.x + q.z * q.z)
  m12 := 2 * (q.y * q.z - q.w * q.x)
  m20 := 2 * (q.x * q.z - q.w * q.y)
  m21 := 2 * (q.y * q.z + q.w * q.x)
  m22 := 1 - 2 * (q.x * q.x + q.y * q.y)

end Quat

/-- The `InertiaTensorFace` record of the source header: a triangular face
carrying its normal `norm`, its plane offset `w`, and its vertex indices.
(The header's back-pointer to the owning polyhedron is replaced by passing
the polyhedron explicitly, as the spec directs; `numVerts` is kept.) -/
structure InertiaTensorFace where
  numVerts : ℕ
  norm : Vec3
  w : ℚ
  verts : ℕ × ℕ × ℕ
  deriving DecidableEq, Repr

/-- The `InertiaTensorPolyhedron` record of the source header: vertex
positions and faces. -/
structure InertiaTensorPolyhedron where
  verts : List Vec3
  faces : List InertiaTensorFace
  deriving DecidableEq, Repr

/-- The engine state: the member fields of class `InertiaTensor` exactly as
declared in the source header — the two tensors (lines 55, 59), the axis
roles `A`, `B`, `C` (lines 89–91), the projection integrals (line 94), the
face integrals (line 97) and the volume integrals (line 100). -/
structure InertiaTensor where
  body_inertia_tensor_ : Mat3
  spatial_inertia_tensor_ : Mat3
  A : Fin 3
  B : Fin 3
  C : Fin 3
  P1 : ℚ
  Pa : ℚ
  Pb : ℚ
  Paa : ℚ
  Pab : ℚ
  Pbb : ℚ
  Paaa : ℚ
  Paab : ℚ
  Pabb : ℚ
  Pbbb : ℚ
  Fa : ℚ
  Fb : ℚ
  Fc : ℚ
  Faa : ℚ
  Fbb : ℚ
  Fcc : ℚ
  Faaa : ℚ
  Fbbb : ℚ
  Fccc : ℚ
  Faab : ℚ
  Fbbc : ℚ
  Fcca : ℚ
  T0 : ℚ
  T1 : Vec3
  T2 : Vec3
  TP : Vec3

namespace InertiaTensor

/-- A fresh engine instance (the default-constructed `InertiaTensor()`). -/
def init : InertiaTensor where
  body_inertia_tensor_ := Mat3.diag 0 0 0
  spatial_inertia_tensor_ := Mat3.diag 0 0 0
  A := 0
  B := 1
  C := 2
  P1 := 0
  Pa := 0
  Pb := 0
  Paa := 0
  Pab := 0
  Pbb := 0
  Paaa := 0
  Paab := 0
  Pabb := 0
  Pbbb := 0
  Fa := 0
  Fb := 0
  Fc := 0
  Faa := 0
  Fbb := 0
  Fcc := 0
  Faaa := 0
  Fbbb := 0
  Fccc := 0
  Faab := 0
  Fbbc := 0
  Fcca := 0
  T0 := 0
  T1 := Vec3.zero
  T2 := Vec3.zero
  TP := Vec3.zero

/-- Modelled from the spec: the per-face axis selection — `C` is the
coordinate axis whose absolute component in the face normal is largest
(`X` wins ties against `Y`/`Z` only strictly, matching the usual
comparison chain). -/
def chooseGamma (n : Vec3) : Fin 3 :=
  if |n.x| > |n.y| ∧ |n.x| > |n.z| then 0
  else if |n.y| > |n.z| then 1
  else 2

/-- The fixed cyclic successor `X→Y→Z→X` used to assign roles `A`, `B`
after `C`. -/
def nextAxis (c : Fin 3) : Fin 3 := c + 1

/-- Running per-edge sums of the ten projection integrals, before the final
degree divisors are applied. -/
structure ProjAcc where
  p1 : ℚ
  pa : ℚ
  pb : ℚ
  paa : ℚ
  pab : ℚ
  pbb : ℚ
  paaa : ℚ
  paab : ℚ
  pabb : ℚ
  pbbb : ℚ
  deriving DecidableEq, Repr

/-- The all-zero projection sums. -/
def ProjAcc.zero : ProjAcc := ⟨0, 0, 0, 0, 0, 0, 0, 0, 0, 0⟩

/-- Modelled from the spec: one edge's polynomial contribution to the ten
projection integrals (the standard closed-form Green's-theorem sums for
polygon area and moments, in the `(A, B)` projection plane). -/
def projEdge (a0 b0 a1 b1 : ℚ) (acc : ProjAcc) : ProjAcc :=
  let da := a1 - a0
  let db := b1 - b0
  let a02 := a0 * a0
  let a03 := a02 * a0
  let a04 := a03 * a0
  let b02 := b0 * b0
  let b03 := b02 * b0
  let b04 := b03 * b0
  let a12 := a1 * a1
  let a13 := a12 * a1
  let b12 := b1 * b1
  let b13 := b12 * b1
  let cone := a1 + a0
  let ca := a1 * cone + a02
  let caa := a1 * ca + a03
  let caaa := a1 * caa + a04
  let cb := b1 * (b1 + b0) + b02
  let cbb := b1 * cb + b03
  let cbbb := b1 * cbb + b04
  let cab := 3 * a12 + 2 * a1 * a0 + a02
  let kab := a12 + 2 * a1 * a0 + 3 * a02
  let caab := a0 * cab + 4 * a13
  let kaab := a1 * kab + 4 * a03
  let cabb := 4 * b13 + 3 * b12 * b0 + 2 * b1 * b02 + b03
  let kabb := b13 + 2 * b12 * b0 + 3 * b1 * b02 + 4 * b03
  { p1 := acc.p1 + db * cone
    pa := acc.pa + db * ca
    paa := acc.paa + db * caa
    paaa := acc.paaa + db * caaa
    pb := acc.pb + da * cb
    pbb := acc.pbb + da * cbb
    pbbb := acc.pbbb + da * cbbb
    pab := acc.pab + db * (b1 * cab + b0 * kab)
    paab := acc.paab + db * (b1 * caab + b0 * kaab)
    pabb := acc.pabb + da * (a1 * cabb + a0 * kabb) }

/-- Modelled from the spec: `compProjectionIntegrals` — walk the face's
three vertices as a closed polygon edge-by-edge in the `(A, B)` projection,
accumulate the Green's-theorem edge sums, apply the degree divisors, and
store the ten results in the engine's projection-integral fields. -/
def compProjectionIntegrals (p : InertiaTensorPolyhedron) (s : InertiaTensor)
    (f : InertiaTensorFace) : InertiaTensor :=
  let vert : ℕ → Vec3 := fun i => p.verts.getD i Vec3.zero
  let v0 := vert f.verts.1
  let v1 := vert f.verts.2.1
  let v2 := vert f.verts.2.2
  let a := s.A
  let b := s.B
  let acc := projEdge (v2.nth a) (v2.nth b) (v0.nth a) (v0.nth b)
      (projEdge (v1.nth a) (v1.nth b) (v2.nth a) (v2.nth b)
        (projEdge (v0.nth a) (v0.nth b) (v1.nth a) (v1.nth b) ProjAcc.zero))
  { s with
    P1 := acc.p1 / 2
    Pa := acc.pa / 6
    Paa := acc.paa / 12
    Paaa := acc.paaa / 20
    Pb := acc.pb / (-6)
    Pbb := acc.pbb / (-12)
    Pbbb := acc.pbbb / (-20)
    Pab := acc.pab / 24
    Paab := acc.paab / 60
    Pabb := acc.pabb / (-60) }

/-- Modelled from the spec: `compFaceIntegrals` — lift the ten projection
integrals to the twelve 3D face integrals using the face's plane equation
`w` and the reciprocal powers `k1 = 1/norm[C]`, `k2 = k1²`, `k3 = k1³`,
`k4 = k1⁴`, storing the results in the engine's face-integral fields. -/
def compFaceIntegrals (p : InertiaTensorPolyhedron) (s : InertiaTensor)
    (f : InertiaTensorFace) : InertiaTensor :=
  let s := compProjectionIntegrals p s f
  let w := f.w
  let n := f.norm
  let nA := n.nth s.A
  let nB := n.nth s.B
  let k1 := 1 / n.nth s.C
  let k2 := k1 * k1
  let k3 := k2 * k1
  let k4 := k3 * k1
  { s with
    Fa := k1 * s.Pa
    Fb := k1 * s.Pb
    Fc := -k2 * (nA * s.Pa + nB * s.Pb + w * s.P1)
    Faa := k1 * s.Paa
    Fbb := k1 * s.Pbb
    Fcc := k3 * (nA * nA * s.Paa + 2 * nA * nB * s.Pab + nB * nB * s.Pbb
      + w * (2 * (nA * s.Pa + nB * s.Pb) + w * s.P1))
    Faaa := k1 * s.Paaa
    Fbbb := k1 * s.Pbbb
    Fccc := -k4 * (nA * nA * nA * s.Paaa + 3 * nA * nA * nB * s.Paab
      + 3 * nA * nB * nB * s.Pabb + nB * nB * nB * s.Pbbb
      + 3 * w * (nA * nA * s.Paa + 2 * nA * nB * s.Pab + nB * nB * s.Pbb)
      + w * w * (3 * (nA * s.Pa + nB * s.Pb) + w * s.P1))
    Faab := k1 * s.Paab
    Fbbc := -k2 * (nA * s.Pabb + nB * s.Pbbb + w * s.Pbb)
    Fcca := k3 * (nA * nA * s.Paaa + 2 * nA * nB * s.Paab + nB * nB * s.Pabb
      + w * (2 * (nA * s.Paa + nB * s.Pab) + w * s.Pa)) }

/-- Modelled from the spec: processing of one face inside
`compVolumeIntegrals` — choose the axis permutation from the face normal,
compute the face integrals, and add the face's signed contributions to the
four volume-integral accumulators. -/
def processFace (p : InertiaTensorPolyhedron) (s : InertiaTensor)
    (f : InertiaTensorFace) : InertiaTensor :=
  let n := f.norm
  let c := chooseGamma n
  let a := nextAxis c
  let b := nextAxis a
  let s := { s with A := a, B := b, C := c }
  let s := compFaceIntegrals p s f
  let t1 := s.T1.set a (s.T1.nth a + n.nth a * s.Faa)
  let t1 := t1.set b (t1.nth b + n.nth b * s.Fbb)
  let t1 := t1.set c (t1.nth c + n.nth c * s.Fcc)
  let t2 := s.T2.set a (s.T2.nth a + n.nth a * s.Faaa)
  let t2 := t2.set b (t2.nth b + n.nth b * s.Fbbb)
  let t2 := t2.set c (t2.nth c + n.nth c * s.Fccc)
  let tp := s.TP.set a (s.TP.nth a + n.nth a * s.Faab)
  let tp := tp.set b (tp.nth b + n.nth b * s.Fbbc)
  let tp := tp.set c (tp.nth c + n.nth c * s.Fcca)
  { s with
    T0 := s.T0 + n.x * (if a = 0 then s.Fa else if b = 0 then s.Fb else s.Fc)
    T1 := t1
    T2 := t2
    TP := tp }

/-- Modelled from the spec: `compVolumeIntegrals` — reset the four global
accumulators, accumulate every face's contribution, then apply the degree
divisors exactly once, globally: `T1 /= 2`, `T2 /= 3`, `TP /= 2`. -/
def compVolumeIntegrals (p : InertiaTensorPolyhedron) (s : InertiaTensor) :
    InertiaTensor :=
  let s := { s with T0 := 0, T1 := Vec3.zero, T2 := Vec3.zero, TP := Vec3.zero }
  let s := p.faces.foldl (processFace p) s
  { s with
    T1 := ⟨s.T1.x / 2, s.T1.y / 2, s.T1.z / 2⟩
    T2 := ⟨s.T2.x / 3, s.T2.y / 3, s.T2.z / 3⟩
    TP := ⟨s.TP.x / 2, s.TP.y / 2, s.TP.z / 2⟩ }

end InertiaTensor

/-- The external `SurfaceMesh<Scalar>` at its boundary (spec §3): ordered
vertex positions and ordered triangular faces given as vertex-index
triples with outward winding. -/
structure SurfaceMesh where
  verts : List Vec3
  faces : List (ℕ × ℕ × ℕ)
  deriving DecidableEq, Repr

/-- Modelled from the spec: the Mesh Adapter glue of `setBody` — scale the
vertices componentwise and build the `InertiaTensorPolyhedron`, computing
each face's outward normal from its winding and the plane offset
`w = -(normal · any_vertex)`.  The normal is the (unnormalized) cross
product of the edge vectors; the face- and volume-integral formulas are
homogeneous of degree zero in `(norm, w)`, so they yield the same volume
integrals as with the unit normal, which avoids the square root that unit
normalization would need. -/
def mkPolyhedron (mesh : SurfaceMesh) (scale : Vec3) : InertiaTensorPolyhedron :=
  let verts := mesh.verts.map (Vec3.scaleBy scale)
  let faces := mesh.faces.map fun ijk =>
    let v0 := verts.getD ijk.1 Vec3.zero
    let v1 := verts.getD ijk.2.1 Vec3.zero
    let v2 := verts.getD ijk.2.2 Vec3.zero
    let n := Vec3.cross (v1.sub v0) (v2.sub v0)
    { numVerts := 3, norm := n, w := -(n.dot v0), verts := ijk : InertiaTensorFace }
  { verts := verts, faces := faces }

/-- The error taxonomy of the spec (§7) for `setBody`: a zero-normal face,
or an accumulated signed volume `T0 ≤ 0`. -/
inductive SetBodyError where
  | degenerateFace : SetBodyError
  | invertedVolume : SetBodyError
  deriving DecidableEq, Repr

namespace InertiaTensor

/-- The Tensor Assembler (spec §4.4): from density, mass, mass center and
the accumulated volume integrals, build the body-frame inertia tensor with
the parallel-axis correction, symmetric by construction. -/
def assembleInertia (density mass : ℚ) (r : Vec3) (s : InertiaTensor) : Mat3 where
  m00 := density * (s.T2.y + s.T2.z) - mass * (r.y * r.y + r.z * r.z)
  m11 := density * (s.T2.z + s.T2.x) - mass * (r.z * r.z + r.x * r.x)
  m22 := density * (s.T2.x + s.T2.y) - mass * (r.x * r.x + r.y * r.y)
  m01 := -density * s.TP.x + mass * r.x * r.y
  m10 := -density * s.TP.x + mass * r.x * r.y
  m12 := -density * s.TP.y + mass * r.y * r.z
  m21 := -density * s.TP.y + mass * r.y * r.z
  m02 := -density * s.TP.z + mass * r.z * r.x
  m20 := -density * s.TP.z + mass * r.z * r.x

/-- Modelled from the spec: `setBody(mesh, scale, density, mass_center,
mass)` — build the scaled polyhedron, reject a degenerate (zero-normal)
face, accumulate the volume integrals, reject an accumulated signed volume
`T0 ≤ 0` as an inverted/non-manifold mesh, then assemble `mass`,
`mass_center` and the body tensor, and initialize the spatial tensor to a
copy of the freshly computed body tensor.  The C++ out-parameters
`mass_center` and `mass` are returned alongside the updated engine
state. -/
def setBody (mesh : SurfaceMesh) (scale : Vec3) (density : ℚ)
    (s : InertiaTensor) : Except SetBodyError (Vec3 × ℚ × InertiaTensor) :=
  let p := mkPolyhedron mesh scale
  if p.faces.any fun f => f.norm = Vec3.zero then
    .error .degenerateFace
  else
    let s := compVolumeIntegrals p s
    if s.T0 ≤ 0 then
      .error .invertedVolume
    else
      let mass := density * s.T0
      let r : Vec3 := ⟨s.T1.x / s.T0, s.T1.y / s.T0, s.T1.z / s.T0⟩
      let J := assembleInertia density mass r s
      .ok (r, mass, { s with body_inertia_tensor_ := J, spatial_inertia_tensor_ := J })

/-- Modelled from the spec: `rotate(quad)` — build the rotation matrix `R`
of the orientation, compute `R · body_inertia_tensor · Rᵗ`, store it as the
new spatial tensor and return it; `body_inertia_tensor_` is not touched. -/
def rotate (s : InertiaTensor) (q : Quat) : Mat3 × InertiaTensor :=
  let R := q.toMatrix
  let M := (R.mul s.body_inertia_tensor_).mul R.transpose
  (M, { s with spatial_inertia_tensor_ := M })

/-- The scratch output of one face's integration: the engine's
axis-role / projection-integral / face-integral fields as
`compFaceIntegrals` leaves them, as a pure function of the vertex table
and the face (the spec's transient per-face value). -/
def faceScratch (vs : List Vec3) (f : InertiaTensorFace) : InertiaTensor :=
  let c := chooseGamma f.norm
  let a := nextAxis c
  let b := nextAxis a
  compFaceIntegrals ⟨vs, []⟩ { init with A := a, B := b, C := c } f

/-- One face's summand of the `T0` accumulation (the Volume Accumulator's
commutative-reduction contract of the spec). -/
def faceT0 (vs : List Vec3) (f : InertiaTensorFace) : ℚ :=
  let c := chooseGamma f.norm
  let a := nextAxis c
  let b := nextAxis a
  let s := faceScratch vs f
  f.norm.x * (if a = 0 then s.Fa else if b = 0 then s.Fb else s.Fc)

/-- One face's summand of the (undivided) `T1` accumulation. -/
def faceT1 (vs : List Vec3) (f : InertiaTensorFace) : Vec3 :=
  let c := chooseGamma f.norm
  let a := nextAxis c
  let b := nextAxis a
  let s := faceScratch vs f
  let n := f.norm
  ((Vec3.zero.set a (n.nth a * s.Faa)).set b (n.nth b * s.Fbb)).set c (n.nth c * s.Fcc)

/-- One face's summand of the (undivided) `T2` accumulation. -/
def faceT2 (vs : List Vec3) (f : InertiaTensorFace) : Vec3 :=
  let c := chooseGamma f.norm
  let a := nextAxis c
  let b := nextAxis a
  let s := faceScratch vs f
  let n := f.norm
  ((Vec3.zero.set a (n.nth a * s.Faaa)).set b (n.nth b * s.Fbbb)).set c (n.nth c * s.Fccc)

/-- One face's summand of the (undivided) `TP` accumulation. -/
def faceTP (vs : List Vec3) (f : InertiaTensorFace) : Vec3 :=
  let c := chooseGamma f.norm
  let a := nextAxis c
  let b := nextAxis a
  let s := faceScratch vs f
  let n := f.norm
  ((Vec3.zero.set a (n.nth a * s.Faab)).set b (n.nth b * s.Fbbc)).set c (n.nth c * s.Fcca)

/-- Copy every scratch member (the axis roles, the projection integrals and
the face integrals) of `t` onto `s`, leaving the tensors and the volume
accumulators of `s` in place. -/
def withScratch (s t : InertiaTensor) : InertiaTensor :=
  { s with
    A := t.A
    B := t.B
    C := t.C
    P1 := t.P1
    Pa := t.Pa
    Pb := t.Pb
    Paa := t.Paa
    Pab := t.Pab
    Pbb := t.Pbb
    Paaa := t.Paaa
    Paab := t.Paab
    Pabb := t.Pabb
    Pbbb := t.Pbbb
    Fa := t.Fa
    Fb := t.Fb
    Fc := t.Fc
    Faa := t.Faa
    Fbb := t.Fbb
    Fcc := t.Fcc
    Faaa := t.Faaa
    Fbbb := t.Fbbb
    Fccc := t.Fccc
    Faab := t.Faab
    Fbbc := t.Fbbc
    Fcca := t.Fcca }

end InertiaTensor

/-- The mass center a successful `setBody` call reports through its
`mass_center` out-parameter. -/
def okCenter (e : Except SetBodyError (Vec3 × ℚ × InertiaTensor)) : Vec3 :=
  match e with
  | .ok t => t.1
  | .error _ => Vec3.zero

/-- The mass a successful `setBody` call reports through its `mass`
out-parameter. -/
def okMass (e : Except SetBodyError (Vec3 × ℚ × InertiaTensor)) : ℚ :=
  match e with
  | .ok t => t.2.1
  | .error _ => 0

/-- The engine state a successful `setBody` call leaves behind. -/
def okState (e : Except SetBodyError (Vec3 × ℚ × InertiaTensor)) : InertiaTensor :=
  match e with
  | .ok t => t.2.2
  | .error _ => InertiaTensor.init

/-- The observable outcome of `setBody` — acceptance decision, mass center,
mass and body tensor — as a function of the degenerate-face check and the
accumulated volume integrals alone (the formulas of the Tensor
Assembler). -/
def setBodySummary (anyDeg : Bool) (density T0 : ℚ) (T1 T2 TP : Vec3) :
    Except SetBodyError (Vec3 × ℚ × Mat3) :=
  if anyDeg then .error .degenerateFace
  else if T0 ≤ 0 then .error .invertedVolume
  else
    let mass := density * T0
    let r : Vec3 := ⟨T1.x / T0, T1.y / T0, T1.z / T0⟩
    .ok (r, mass,
      { m00 := density * (T2.y + T2.z) - mass * (r.y * r.y + r.z * r.z)
        m01 := -density * TP.x + mass * r.x * r.y
        m02 := -density * TP.z + mass * r.z * r.x
        m10 := -density * TP.x + mass * r.x * r.y
        m11 := density * (T2.z + T2.x) - mass * (r.z * r.z + r.x * r.x)
        m12 := -density * TP.y + mass * r.y * r.z
        m20 := -density * TP.z + mass * r.z * r.x
        m21 := -density * TP.y + mass * r.y * r.z
        m22 := density * (T2.x + T2.y) - mass * (r.x * r.x + r.y * r.y) })

/-- Total mass of a list of point masses. -/
def massSum (pts : List (ℚ × Vec3)) : ℚ := (pts.map Prod.fst).sum

/-- First moment of a list of point masses along axis `i`. -/
def momSum1 (pts : List (ℚ × Vec3)) : Fin 3 → ℚ
  | 0 => (pts.map fun q => q.1 * q.2.x).sum
  | 1 => (pts.map fun q => q.1 * q.2.y).sum
  | 2 => (pts.map fun q => q.1 * q.2.z).sum

/-- Pure second moment of a list of point masses along axis `i`. -/
def momSum2 (pts : List (ℚ × Vec3)) : Fin 3 → ℚ
  | 0 => (pts.map fun q => q.1 * q.2.x * q.2.x).sum
  | 1 => (pts.map fun q => q.1 * q.2.y * q.2.y).sum
  | 2 => (pts.map fun q => q.1 * q.2.z * q.2.z).sum

/-- Mixed second moment of a list of point masses for the axis pair
`(i, i+1)` (so `xy`, `yz`, `zx` for `i = 0, 1, 2`). -/
def momSumP (pts : List (ℚ × Vec3)) : Fin 3 → ℚ
  | 0 => (pts.map fun q => q.1 * q.2.x * q.2.y).sum
  | 1 => (pts.map fun q => q.1 * q.2.y * q.2.z).sum
  | 2 => (pts.map fun q => q.1 * q.2.z * q.2.x).sum

/-- A mesh is a valid solid exactly when its accumulated volume integrals
are the moments of a genuine nonnegative mass distribution; this predicate
states that the finite distribution `pts` has total mass `density · T0`,
first moments `density · T1`, pure second moments `density · T2` and mixed
second moments `density · TP` of the accumulated integrals `vi`. -/
def Realizes (pts : List (ℚ × Vec3)) (density : ℚ) (vi : InertiaTensor) : Prop :=
  (∀ q ∈ pts, 0 ≤ q.1) ∧
  massSum pts = density * vi.T0 ∧
  (∀ i, momSum1 pts i = density * vi.T1.nth i) ∧
  (∀ i, momSum2 pts i = density * vi.T2.nth i) ∧
  (∀ i, momSumP pts i = density * vi.TP.nth i)

instance (pts : List (ℚ × Vec3)) (density : ℚ) (vi : InertiaTensor) :
    Decidable (Realizes pts density vi) := by unfold Realizes; infer_instance

/-- The Cauchy–Schwarz gap `‖u‖²‖v‖² − (u·v)²` of two vectors. -/
def lagrangeGap (u v : Vec3) : ℚ := u.dot u * v.dot v - u.dot v * (u.dot v)

/-- The unit scale vector. -/
def unitScale : Vec3 := ⟨1, 1, 1⟩

/-- The standard tetrahedron with vertices at the origin and the three unit
points, triangulated with outward winding. -/
def tetraMesh : SurfaceMesh where
  verts := [⟨0, 0, 0⟩, ⟨1, 0, 0⟩, ⟨0, 1, 0⟩, ⟨0, 0, 1⟩]
  faces := [(0, 2, 1), (0, 3, 2), (0, 1, 3), (1, 2, 3)]

/-- The same tetrahedron with its face list permuted (same faces, same
per-face winding). -/
def tetraMeshPerm : SurfaceMesh where
  verts := [⟨0, 0, 0⟩, ⟨1, 0, 0⟩, ⟨0, 1, 0⟩, ⟨0, 0, 1⟩]
  faces := [(1, 2, 3), (0, 3, 2), (0, 2, 1), (0, 1, 3)]

/-- The same tetrahedron with every face's winding reversed (inward
orientation), so the accumulated signed volume is negative. -/
def tetraMeshReversed : SurfaceMesh where
  verts := [⟨0, 0, 0⟩, ⟨1, 0, 0⟩, ⟨0, 1, 0⟩, ⟨0, 0, 1⟩]
  faces := [(0, 1, 2), (0, 2, 3), (0, 3, 1), (1, 3, 2)]

/-- The scaled polyhedron `setBody` builds from the tetrahedron at unit
scale. -/
def tetraPoly : InertiaTensorPolyhedron := mkPolyhedron tetraMesh unitScale

/-- A nonnegative point-mass quadrature of the standard tetrahedron, exact
through second-order moments (its four corner points pulled halfway to the
centroid, plus the centroid). -/
def tetraPts : List (ℚ × Vec3) :=
  [(1/30, ⟨1/8, 1/8, 1/8⟩), (1/30, ⟨5/8, 1/8, 1/8⟩),
   (1/30, ⟨1/8, 5/8, 1/8⟩), (1/30, ⟨1/8, 1/8, 5/8⟩),
   (1/30, ⟨1/4, 1/4, 1/4⟩)]

/-- An engine state holding a concrete anisotropic body tensor
`diag(1, 2, 3)`. -/
def stateDiag : InertiaTensor :=
  { InertiaTensor.init with
    body_inertia_tensor_ := Mat3.diag 1 2 3
    spatial_inertia_tensor_ := Mat3.diag 1 2 3 }

/-- A concrete unit quaternion, a rotation about the `x`-axis with
`cos(θ/2) = 3/5`. -/
def quatX : Quat := ⟨3/5, 4/5, 0, 0⟩

theorem Mat3.mul_assoc (P Q R : Mat3) : (P.mul Q).mul R = P.mul (Q.mul R) := by
  cases P; cases Q; cases R
  simp only [Mat3.mul, Mat3.mk.injEq]
  and_intros <;> ring

theorem Mat3.identity_similarity (B : Mat3) :
    (Quat.identity.toMatrix.mul B).mul Quat.identity.toMatrix.transpose = B := by
  cases B
  simp only [Quat.identity, Quat.toMatrix, Mat3.mul, Mat3.transpose, Mat3.mk.injEq]
  and_intros <;> ring

theorem Quat.toMatrix_inverse_of_unit (q : Quat) (hq : q.IsUnit) :
    q.inverse.toMatrix = q.toMatrix.transpose := by
  have h1 : q.normSq = 1 := hq
  cases q with
  | mk w x y z =>
    simp only [Quat.normSq] at h1
    simp only [Quat.inverse, Quat.normSq, h1, div_one]
    simp only [Quat.toMatrix, Mat3.transpose, Mat3.mk.injEq]
    and_intros <;> ring

namespace InertiaTensor

/-- C2: for every unit-norm orientation quaternion `q`, `rotate(q)` returns
`R · body_inertia_tensor · Rᵗ` where `R` is the rotation matrix of `q`,
stores that same matrix as the new `spatial_inertia_tensor_`, and derives
the result from the current `body_inertia_tensor_` only — replacing the
previous spatial tensor by anything leaves the call's result unchanged. -/
theorem rotate_formula (s : InertiaTensor) (q : Quat) (_hq : q.IsUnit) :
    (s.rotate q).1 = q.toMatrix.mul (s.body_inertia_tensor_.mul q.toMatrix.transpose) ∧
    (s.rotate q).2.spatial_inertia_tensor_ = (s.rotate q).1 ∧
    ∀ M : Mat3, InertiaTensor.rotate { s with spatial_inertia_tensor_ := M } q = s.rotate q :=
  ⟨Mat3.mul_assoc _ _ _, rfl, fun _ => rfl⟩

unseal Rat.add Rat.mul Rat.inv Rat.sub in
/-- Witness for `rotate_formula` at the concrete state `stateDiag` and the
concrete unit quaternion `quatX`. -/
theorem rotate_formula_witness :
    (stateDiag.rotate quatX).1
      = quatX.toMatrix.mul (stateDiag.body_inertia_tensor_.mul quatX.toMatrix.transpose) ∧
    (stateDiag.rotate quatX).2.spatial_inertia_tensor_ = (stateDiag.rotate quatX).1 ∧
    ∀ M : Mat3, InertiaTensor.rotate { stateDiag with spatial_inertia_tensor_ := M } quatX
      = stateDiag.rotate quatX :=
  rotate_formula stateDiag quatX (by decide)

/-- C5: `rotate` modifies only `spatial_inertia_tensor_`: the body tensor
is returned unchanged and the whole resulting state is the input state with
just the spatial tensor replaced.  (The mass and mass-center outputs of the
last `setBody` are out-parameters held by the caller, not engine fields —
see the header — so no `rotate` call can touch them.) -/
theorem rotate_modifies_only_spatial (s : InertiaTensor) (q : Quat) :
    (s.rotate q).2.body_inertia_tensor_ = s.body_inertia_tensor_ ∧
    (s.rotate q).2 = { s with spatial_inertia_tensor_ := (s.rotate q).1 } :=
  ⟨rfl, rfl⟩

unseal Rat.add Rat.mul Rat.inv Rat.sub in
/-- C4 counterexample: `rotate` recomputes from the unchanged body tensor,
so for the unit quaternion `quatX` (rotation about `x`) and the anisotropic
body tensor `diag(1, 2, 3)`, calling `rotate(quatX)` and then
`rotate(inverse(quatX))` leaves the spatial tensor equal to
`Rᵗ · body · R`, which differs from the body tensor — the round trip does
not restore it. -/
theorem rotate_roundtrip_counterexample :
    quatX.IsUnit ∧
    ((stateDiag.rotate quatX).2.rotate quatX.inverse).2.spatial_inertia_tensor_
      ≠ stateDiag.body_inertia_tensor_ :=
  ⟨by decide, by decide⟩

/-- C4 (amended): `rotate(identity)` leaves the spatial tensor equal to the
body tensor, and repeated `rotate` calls never compound error because each
call recomputes from the unchanged body tensor — rotating twice with the
same `q` gives exactly the result of rotating once; but `rotate(q)`
followed by `rotate(inverse(q))` yields `Rᵗ · body · R`, which need not
equal the body tensor (it does only when `R` commutes with it). -/
theorem rotate_identity_roundtrip (s : InertiaTensor) (q : Quat) (hq : q.IsUnit) :
    (s.rotate Quat.identity).1 = s.body_inertia_tensor_ ∧
    ((s.rotate q).2.rotate q.inverse).2.spatial_inertia_tensor_
      = (q.toMatrix.transpose.mul s.body_inertia_tensor_).mul q.toMatrix ∧
    ((s.rotate q).2.rotate q).1 = (s.rotate q).1 := by
  refine ⟨Mat3.identity_similarity _, ?_, rfl⟩
  show (q.inverse.toMatrix.mul s.body_inertia_tensor_).mul q.inverse.toMatrix.transpose = _
  rw [Quat.toMatrix_inverse_of_unit q hq]
  rfl

unseal Rat.add Rat.mul Rat.inv Rat.sub in
/-- Witness for `rotate_identity_roundtrip` at the concrete state
`stateDiag` and the concrete unit quaternion `quatX`. -/
theorem rotate_identity_roundtrip_witness :
    (stateDiag.rotate Quat.identity).1 = stateDiag.body_inertia_tensor_ ∧
    ((stateDiag.rotate quatX).2.rotate quatX.inverse).2.spatial_inertia_tensor_
      = (quatX.toMatrix.transpose.mul stateDiag.body_inertia_tensor_).mul quatX.toMatrix ∧
    ((stateDiag.rotate quatX).2.rotate quatX).1 = (stateDiag.rotate quatX).1 :=
  rotate_identity_roundtrip stateDiag quatX (by decide)

/-- C1: for every mesh, scale and density accepted by `setBody`, the
reported outputs satisfy `mass = density · T0` and
`mass_center[i] = T1[i] / T0` for each axis `i`, where `T0` and `T1` are
the signed volume and first-moment integrals accumulated over all faces of
the scaled mesh. -/
theorem setBody_mass_center (mesh : SurfaceMesh) (scale : Vec3) (density : ℚ)
    (s₀ : InertiaTensor)
    (h : (setBody mesh scale density s₀).isOk = true) :
    okMass (setBody mesh scale density s₀)
      = density * (compVolumeIntegrals (mkPolyhedron mesh scale) s₀).T0 ∧
    ∀ i : Fin 3, (okCenter (setBody mesh scale density s₀)).nth i
      = (compVolumeIntegrals (mkPolyhedron mesh scale) s₀).T1.nth i
        / (compVolumeIntegrals (mkPolyhedron mesh scale) s₀).T0 := by
  rcases hE : setBody mesh scale density s₀ with e | t
  · rw [hE] at h
    simp [Except.isOk, Except.toBool] at h
  · simp only [setBody] at hE
    split at hE
    · exact absurd hE (by simp)
    · split at hE
      · exact absurd hE (by simp)
      · injection hE with ht
        subst ht
        exact ⟨rfl, by intro i; fin_cases i <;> rfl⟩

unseal Rat.add Rat.mul Rat.inv Rat.sub in
/-- Witness for `setBody_mass_center`: the standard tetrahedron at unit
scale and density 1 is accepted, and the formulas hold there. -/
theorem setBody_mass_center_witness :
    (setBody tetraMesh unitScale 1 InertiaTensor.init).isOk = true ∧
    (okMass (setBody tetraMesh unitScale 1 InertiaTensor.init)
      = 1 * (compVolumeIntegrals (mkPolyhedron tetraMesh unitScale) InertiaTensor.init).T0 ∧
    ∀ i : Fin 3, (okCenter (setBody tetraMesh unitScale 1 InertiaTensor.init)).nth i
      = (compVolumeIntegrals (mkPolyhedron tetraMesh unitScale) InertiaTensor.init).T1.nth i
        / (compVolumeIntegrals (mkPolyhedron tetraMesh unitScale) InertiaTensor.init).T0) :=
  ⟨by decide, setBody_mass_center tetraMesh unitScale 1 InertiaTensor.init (by decide)⟩

/-- C6: every successful `setBody` call leaves `spatial_inertia_tensor_`
equal to the freshly computed `body_inertia_tensor_`. -/
theorem setBody_initializes_spatial (mesh : SurfaceMesh) (scale : Vec3)
    (density : ℚ) (s₀ : InertiaTensor)
    (h : (setBody mesh scale density s₀).isOk = true) :
    (okState (setBody mesh scale density s₀)).spatial_inertia_tensor_
      = (okState (setBody mesh scale density s₀)).body_inertia_tensor_ := by
  rcases hE : setBody mesh scale density s₀ with e | t
  · rw [hE] at h
    simp [Except.isOk, Except.toBool] at h
  · simp only [setBody] at hE
    split at hE
    · exact absurd hE (by simp)
    · split at hE
      · exact absurd hE (by simp)
      · injection hE with ht
        subst ht
        rfl

unseal Rat.add Rat.mul Rat.inv Rat.sub in
/-- Witness for `setBody_initializes_spatial` at the standard
tetrahedron. -/
theorem setBody_initializes_spatial_witness :
    (setBody tetraMesh unitScale 1 InertiaTensor.init).isOk = true ∧
    (okState (setBody tetraMesh unitScale 1 InertiaTensor.init)).spatial_inertia_tensor_
      = (okState (setBody tetraMesh unitScale 1 InertiaTensor.init)).body_inertia_tensor_ :=
  ⟨by decide, setBody_initializes_spatial tetraMesh unitScale 1 InertiaTensor.init (by decide)⟩

/-- C3: if no face is degenerate and the signed volume `T0` accumulated
over all faces is nonpositive (inverted winding or a degenerate or
non-manifold mesh), `setBody` fails with the inverted-volume error instead
of returning a nonpositive mass. -/
theorem setBody_rejects_nonpositive_volume (mesh : SurfaceMesh) (scale : Vec3)
    (density : ℚ) (s₀ : InertiaTensor)
    (hdeg : ∀ f ∈ (mkPolyhedron mesh scale).faces, f.norm ≠ Vec3.zero)
    (hT0 : (compVolumeIntegrals (mkPolyhedron mesh scale) s₀).T0 ≤ 0) :
    setBody mesh scale density s₀ = .error .invertedVolume := by
  have hany : ¬((mkPolyhedron mesh scale).faces.any fun f =>
      decide (f.norm = Vec3.zero)) = true := by
    simp only [List.any_eq_true, decide_eq_true_eq, not_exists]
    rintro f ⟨hf, hz⟩
    exact hdeg f hf hz
  simp only [setBody]
  rw [if_neg hany, if_pos hT0]

unseal Rat.add Rat.mul Rat.inv Rat.sub in
/-- Witness for `setBody_rejects_nonpositive_volume`: the tetrahedron with
every face winding reversed has no degenerate face, accumulates
`T0 = −1/6 ≤ 0`, and is rejected. -/
theorem setBody_rejects_nonpositive_volume_witness :
    (∀ f ∈ (mkPolyhedron tetraMeshReversed unitScale).faces, f.norm ≠ Vec3.zero) ∧
    (compVolumeIntegrals (mkPolyhedron tetraMeshReversed unitScale) InertiaTensor.init).T0 ≤ 0 ∧
    setBody tetraMeshReversed unitScale 1 InertiaTensor.init = .error .invertedVolume := by
  have h1 : ∀ f ∈ (mkPolyhedron tetraMeshReversed unitScale).faces, f.norm ≠ Vec3.zero := by
    decide
  have h2 : (compVolumeIntegrals (mkPolyhedron tetraMeshReversed unitScale)
      InertiaTensor.init).T0 ≤ 0 := by decide
  exact ⟨h1, h2, setBody_rejects_nonpositive_volume tetraMeshReversed unitScale 1
    InertiaTensor.init h1 h2⟩

end InertiaTensor

theorem Vec3.nth_add (u v : Vec3) (i : Fin 3) :
    (u.add v).nth i = u.nth i + v.nth i := by
  fin_cases i <;> rfl

namespace InertiaTensor

/-- Processing one face equals: fresh per-face scratch, tensors untouched,
and each volume accumulator incremented by the face's pure summand. -/
theorem processFace_eq (p : InertiaTensorPolyhedron) (s : InertiaTensor)
    (f : InertiaTensorFace) :
    processFace p s f = { faceScratch p.verts f with
      body_inertia_tensor_ := s.body_inertia_tensor_
      spatial_inertia_tensor_ := s.spatial_inertia_tensor_
      T0 := s.T0 + faceT0 p.verts f
      T1 := s.T1.add (faceT1 p.verts f)
      T2 := s.T2.add (faceT2 p.verts f)
      TP := s.TP.add (faceTP p.verts f) } := by
  simp only [processFace, faceScratch, faceT0, faceT1, faceT2, faceTP]
  generalize chooseGamma f.norm = γ
  fin_cases γ <;> rfl

/-- Folding the per-face processing accumulates exactly the per-face
summands on top of the incoming accumulator values. -/
theorem foldl_processFace_volume (p : InertiaTensorPolyhedron)
    (faces : List InertiaTensorFace) (s : InertiaTensor) :
    ((faces.foldl (processFace p) s).T0
        = s.T0 + (faces.map (faceT0 p.verts)).sum) ∧
    (∀ i, (faces.foldl (processFace p) s).T1.nth i
        = s.T1.nth i + (faces.map fun f => (faceT1 p.verts f).nth i).sum) ∧
    (∀ i, (faces.foldl (processFace p) s).T2.nth i
        = s.T2.nth i + (faces.map fun f => (faceT2 p.verts f).nth i).sum) ∧
    (∀ i, (faces.foldl (processFace p) s).TP.nth i
        = s.TP.nth i + (faces.map fun f => (faceTP p.verts f).nth i).sum) := by
  induction faces generalizing s with
  | nil => simp
  | cons f fs ih =>
    obtain ⟨ih0, ih1, ih2, ih3⟩ := ih (processFace p s f)
    simp only [List.foldl_cons, List.map_cons, List.sum_cons]
    refine ⟨?_, fun i => ?_, fun i => ?_, fun i => ?_⟩
    · rw [ih0]
      simp only [processFace_eq]
      ring
    · rw [ih1 i]
      simp only [processFace_eq, Vec3.nth_add]
      ring
    · rw [ih2 i]
      simp only [processFace_eq, Vec3.nth_add]
      ring
    · rw [ih3 i]
      simp only [processFace_eq, Vec3.nth_add]
      ring

/-- The four volume integrals of `compVolumeIntegrals` are the plain sums
of the per-face summands, with the degree divisors applied once at the
end. -/
theorem compVolumeIntegrals_sums (p : InertiaTensorPolyhedron) (s : InertiaTensor) :
    ((compVolumeIntegrals p s).T0 = (p.faces.map (faceT0 p.verts)).sum) ∧
    (∀ i, (compVolumeIntegrals p s).T1.nth i
        = (p.faces.map fun f => (faceT1 p.verts f).nth i).sum / 2) ∧
    (∀ i, (compVolumeIntegrals p s).T2.nth i
        = (p.faces.map fun f => (faceT2 p.verts f).nth i).sum / 3) ∧
    (∀ i, (compVolumeIntegrals p s).TP.nth i
        = (p.faces.map fun f => (faceTP p.verts f).nth i).sum / 2) := by
  obtain ⟨h0, h1, h2, h3⟩ := foldl_processFace_volume p p.faces
    { s with T0 := 0, T1 := Vec3.zero, T2 := Vec3.zero, TP := Vec3.zero }
  refine ⟨?_, fun i => ?_, fun i => ?_, fun i => ?_⟩
  · simp only [compVolumeIntegrals]
    rw [h0]
    simp [Vec3.zero]
  · simp only [compVolumeIntegrals]
    have h1x := h1 0
    have h1y := h1 1
    have h1z := h1 2
    simp only [Vec3.nth, Vec3.zero] at h1x h1y h1z
    fin_cases i <;> simp only [Vec3.nth, Vec3.zero] <;>
      [rw [h1x]; rw [h1y]; rw [h1z]] <;> ring
  · simp only [compVolumeIntegrals]
    have h2x := h2 0
    have h2y := h2 1
    have h2z := h2 2
    simp only [Vec3.nth, Vec3.zero] at h2x h2y h2z
    fin_cases i <;> simp only [Vec3.nth, Vec3.zero] <;>
      [rw [h2x]; rw [h2y]; rw [h2z]] <;> ring
  · simp only [compVolumeIntegrals]
    have h3x := h3 0
    have h3y := h3 1
    have h3z := h3 2
    simp only [Vec3.nth, Vec3.zero] at h3x h3y h3z
    fin_cases i <;> simp only [Vec3.nth, Vec3.zero] <;>
      [rw [h3x]; rw [h3y]; rw [h3z]] <;> ring

/-- C9: in `compVolumeIntegrals` the degree divisors are applied exactly
once, globally, after all faces are processed: the final `T1` is the plain
(undivided) sum of the per-face summands divided by 2, `T2` divided by 3,
`TP` divided by 2 — never per face (`T0` is the undivided sum). -/
theorem compVolumeIntegrals_global_divisors (p : InertiaTensorPolyhedron)
    (s : InertiaTensor) :
    ((compVolumeIntegrals p s).T0 = (p.faces.map (faceT0 p.verts)).sum) ∧
    (∀ i, (compVolumeIntegrals p s).T1.nth i
        = (p.faces.map fun f => (faceT1 p.verts f).nth i).sum / 2) ∧
    (∀ i, (compVolumeIntegrals p s).T2.nth i
        = (p.faces.map fun f => (faceT2 p.verts f).nth i).sum / 3) ∧
    (∀ i, (compVolumeIntegrals p s).TP.nth i
        = (p.faces.map fun f => (faceTP p.verts f).nth i).sum / 2) :=
  compVolumeIntegrals_sums p s

/-- The accumulated volume integrals are invariant under permutation of the
face list (same vertex table). -/
theorem compVolumeIntegrals_perm (p₁ p₂ : InertiaTensorPolyhedron)
    (s : InertiaTensor) (hv : p₁.verts = p₂.verts) (hf : p₁.faces.Perm p₂.faces) :
    (compVolumeIntegrals p₁ s).T0 = (compVolumeIntegrals p₂ s).T0 ∧
    (∀ i, (compVolumeIntegrals p₁ s).T1.nth i = (compVolumeIntegrals p₂ s).T1.nth i) ∧
    (∀ i, (compVolumeIntegrals p₁ s).T2.nth i = (compVolumeIntegrals p₂ s).T2.nth i) ∧
    (∀ i, (compVolumeIntegrals p₁ s).TP.nth i = (compVolumeIntegrals p₂ s).TP.nth i) := by
  obtain ⟨g0, g1, g2, g3⟩ := compVolumeIntegrals_sums p₁ s
  obtain ⟨k0, k1, k2, k3⟩ := compVolumeIntegrals_sums p₂ s
  refine ⟨?_, fun i => ?_, fun i => ?_, fun i => ?_⟩
  · rw [g0, k0, hv]
    exact (hf.map (faceT0 p₂.verts)).sum_eq
  · rw [g1 i, k1 i, hv]
    rw [(hf.map fun f => (faceT1 p₂.verts f).nth i).sum_eq]
  · rw [g2 i, k2 i, hv]
    rw [(hf.map fun f => (faceT2 p₂.verts f).nth i).sum_eq]
  · rw [g3 i, k3 i, hv]
    rw [(hf.map fun f => (faceTP p₂.verts f).nth i).sum_eq]

/-- C8: for every mesh and every permutation of its face list (same set of
faces, same per-face winding), `setBody` produces the same acceptance
decision, the same mass, the same mass center and the same
`body_inertia_tensor_` — the per-face accumulation is an order-independent
commutative reduction (exact in ℚ, "up to rounding" in floating point). -/
theorem Vec3.ext3 {u v : Vec3} (hx : u.x = v.x) (hy : u.y = v.y)
    (hz : u.z = v.z) : u = v := by
  cases u; cases v
  cases hx; cases hy; cases hz
  rfl

/-- The observable outcome of `setBody` factors through `setBodySummary`:
it depends only on the degenerate-face check and the accumulated volume
integrals. -/
theorem setBody_map_summary (mesh : SurfaceMesh) (scale : Vec3) (density : ℚ)
    (s₀ : InertiaTensor) :
    (setBody mesh scale density s₀).map
        (fun t => (t.1, t.2.1, t.2.2.body_inertia_tensor_))
      = setBodySummary
          ((mkPolyhedron mesh scale).faces.any fun f => decide (f.norm = Vec3.zero))
          density (compVolumeIntegrals (mkPolyhedron mesh scale) s₀).T0
          (compVolumeIntegrals (mkPolyhedron mesh scale) s₀).T1
          (compVolumeIntegrals (mkPolyhedron mesh scale) s₀).T2
          (compVolumeIntegrals (mkPolyhedron mesh scale) s₀).TP := by
  simp only [setBody, setBodySummary, assembleInertia]
  split_ifs <;> rfl

theorem setBody_face_order_invariant (m₁ m₂ : SurfaceMesh) (scale : Vec3)
    (density : ℚ) (s₀ : InertiaTensor) (hv : m₁.verts = m₂.verts)
    (hf : m₁.faces.Perm m₂.faces) :
    (setBody m₁ scale density s₀).map (fun t => (t.1, t.2.1, t.2.2.body_inertia_tensor_))
      = (setBody m₂ scale density s₀).map
          (fun t => (t.1, t.2.1, t.2.2.body_inertia_tensor_)) := by
  have hverts : (mkPolyhedron m₁ scale).verts = (mkPolyhedron m₂ scale).verts := by
    simp only [mkPolyhedron, hv]
  have hfaces : (mkPolyhedron m₁ scale).faces.Perm (mkPolyhedron m₂ scale).faces := by
    simp only [mkPolyhedron, hv]
    exact hf.map _
  obtain ⟨hT0, hT1, hT2, hT3⟩ :=
    compVolumeIntegrals_perm (mkPolyhedron m₁ scale) (mkPolyhedron m₂ scale) s₀ hverts hfaces
  have hT1v : (compVolumeIntegrals (mkPolyhedron m₁ scale) s₀).T1
      = (compVolumeIntegrals (mkPolyhedron m₂ scale) s₀).T1 :=
    Vec3.ext3 (hT1 0) (hT1 1) (hT1 2)
  have hT2v : (compVolumeIntegrals (mkPolyhedron m₁ scale) s₀).T2
      = (compVolumeIntegrals (mkPolyhedron m₂ scale) s₀).T2 :=
    Vec3.ext3 (hT2 0) (hT2 1) (hT2 2)
  have hT3v : (compVolumeIntegrals (mkPolyhedron m₁ scale) s₀).TP
      = (compVolumeIntegrals (mkPolyhedron m₂ scale) s₀).TP :=
    Vec3.ext3 (hT3 0) (hT3 1) (hT3 2)
  have hany : ((mkPolyhedron m₁ scale).faces.any fun f => decide (f.norm = Vec3.zero))
      = ((mkPolyhedron m₂ scale).faces.any fun f => decide (f.norm = Vec3.zero)) := by
    rw [Bool.eq_iff_iff]
    simp only [List.any_eq_true]
    constructor
    · rintro ⟨f, hmem, hz⟩
      exact ⟨f, hfaces.mem_iff.mp hmem, hz⟩
    · rintro ⟨f, hmem, hz⟩
      exact ⟨f, hfaces.mem_iff.mpr hmem, hz⟩
  rw [setBody_map_summary, setBody_map_summary, hany, hT0, hT1v, hT2v, hT3v]

unseal Rat.add Rat.mul Rat.inv Rat.sub in
/-- Witness for `setBody_face_order_invariant`: the tetrahedron and its
face-permuted copy give identical results. -/
theorem setBody_face_order_invariant_witness :
    tetraMesh.verts = tetraMeshPerm.verts ∧
    tetraMesh.faces.Perm tetraMeshPerm.faces ∧
    (setBody tetraMesh unitScale 1 InertiaTensor.init).map
        (fun t => (t.1, t.2.1, t.2.2.body_inertia_tensor_))
      = (setBody tetraMeshPerm unitScale 1 InertiaTensor.init).map
          (fun t => (t.1, t.2.1, t.2.2.body_inertia_tensor_)) := by
  have h1 : tetraMesh.verts = tetraMeshPerm.verts := rfl
  have h2 : tetraMesh.faces.Perm tetraMeshPerm.faces := List.isPerm_iff.mp (by decide)
  exact ⟨h1, h2, setBody_face_order_invariant tetraMesh tetraMeshPerm unitScale 1
    InertiaTensor.init h1 h2⟩

unseal Rat.add Rat.mul Rat.inv Rat.sub in
/-- C10 counterexample: the axis roles and the projection/face integral
accumulators are member fields of the engine (header lines 89–100), so
they do persist on the engine between faces: after integrating the first
tetrahedron face the engine state handed to the next face still carries
that face's projection integral `P1 ≠ 0`, and after the whole
`compVolumeIntegrals` pass the engine still carries the last face's
scratch values. -/
theorem scratch_persists_counterexample :
    (processFace tetraPoly InertiaTensor.init
        (tetraPoly.faces.getD 0 ⟨3, Vec3.zero, 0, (0, 0, 0)⟩)).P1
      ≠ InertiaTensor.init.P1 ∧
    (compVolumeIntegrals tetraPoly InertiaTensor.init).P1 ≠ InertiaTensor.init.P1 :=
  ⟨by decide, by decide⟩

/-- C10 (amended): the per-face axis roles and projection/face integral
accumulators are engine member fields, so they persist between faces; but
each face's processing overwrites them before reading them, so they are
never shared across faces — the result of processing a face is identical
whatever scratch values the engine carried beforehand. -/
theorem processFace_ignores_prior_scratch (p : InertiaTensorPolyhedron)
    (s t : InertiaTensor) (f : InertiaTensorFace) :
    processFace p (withScratch s t) f = processFace p s f := by
  rw [processFace_eq, processFace_eq]
  rfl

end InertiaTensor

theorem lagrangeGap_nonneg (u v : Vec3) : 0 ≤ lagrangeGap u v := by
  have h : lagrangeGap u v
      = (u.y * v.z - u.z * v.y) ^ 2 + (u.z * v.x - u.x * v.z) ^ 2
        + (u.x * v.y - u.y * v.x) ^ 2 := by
    simp only [lagrangeGap, Vec3.dot]
    ring
  rw [h]
  positivity

/-- The mass-weighted sum of Cauchy–Schwarz gaps of a point distribution,
recentred at `c`, expanded into the distribution's raw moments. -/
theorem sum_lag_moment (pts : List (ℚ × Vec3)) (c v : Vec3) :
    (pts.map fun q => q.1 * lagrangeGap (q.2.sub c) v).sum
      = v.dot v * ((momSum2 pts 0 - 2 * c.x * momSum1 pts 0 + c.x * c.x * massSum pts)
          + (momSum2 pts 1 - 2 * c.y * momSum1 pts 1 + c.y * c.y * massSum pts)
          + (momSum2 pts 2 - 2 * c.z * momSum1 pts 2 + c.z * c.z * massSum pts))
        - (v.x * v.x * (momSum2 pts 0 - 2 * c.x * momSum1 pts 0 + c.x * c.x * massSum pts)
          + v.y * v.y * (momSum2 pts 1 - 2 * c.y * momSum1 pts 1 + c.y * c.y * massSum pts)
          + v.z * v.z * (momSum2 pts 2 - 2 * c.z * momSum1 pts 2 + c.z * c.z * massSum pts)
          + 2 * v.x * v.y * (momSumP pts 0 - c.x * momSum1 pts 1 - c.y * momSum1 pts 0
              + c.x * c.y * massSum pts)
          + 2 * v.y * v.z * (momSumP pts 1 - c.y * momSum1 pts 2 - c.z * momSum1 pts 1
              + c.y * c.z * massSum pts)
          + 2 * v.z * v.x * (momSumP pts 2 - c.z * momSum1 pts 0 - c.x * momSum1 pts 2
              + c.z * c.x * massSum pts)) := by
  induction pts with
  | nil =>
    simp only [massSum, momSum1, momSum2, momSumP, List.map_nil, List.sum_nil]
    ring
  | cons a l ih =>
    simp only [massSum, momSum1, momSum2, momSumP, List.map_cons, List.sum_cons] at ih ⊢
    rw [ih]
    simp only [lagrangeGap, Vec3.sub, Vec3.dot]
    ring

theorem sum_lag_nonneg (pts : List (ℚ × Vec3)) (c v : Vec3)
    (hm : ∀ q ∈ pts, 0 ≤ q.1) :
    0 ≤ (pts.map fun q => q.1 * lagrangeGap (q.2.sub c) v).sum := by
  apply List.sum_nonneg
  intro x hx
  obtain ⟨q, hq, rfl⟩ := List.mem_map.mp hx
  exact mul_nonneg (hm q hq) (lagrangeGap_nonneg _ _)

/-- The quadratic form of the assembled body tensor is the mass-weighted
sum of Cauchy–Schwarz gaps of any point distribution realizing the
accumulated moments — the discrete form of
`vᵀ I v = ∫ (‖r−c‖²‖v‖² − ((r−c)·v)²) dm`. -/
theorem quadForm_assemble (density mass : ℚ) (r : Vec3) (vi : InertiaTensor)
    (pts : List (ℚ × Vec3)) (v : Vec3)
    (hr : Realizes pts density vi) (hmass : mass = density * vi.T0)
    (hrx : r.x * vi.T0 = vi.T1.x) (hry : r.y * vi.T0 = vi.T1.y)
    (hrz : r.z * vi.T0 = vi.T1.z) :
    (InertiaTensor.assembleInertia density mass r vi).quadForm v
      = (pts.map fun q => q.1 * lagrangeGap (q.2.sub r) v).sum := by
  obtain ⟨-, e0, e1, e2, ep⟩ := hr
  have e10 := e1 0
  have e11 := e1 1
  have e12 := e1 2
  have e20 := e2 0
  have e21 := e2 1
  have e22 := e2 2
  have ep0 := ep 0
  have ep1 := ep 1
  have ep2 := ep 2
  simp only [Vec3.nth] at e10 e11 e12 e20 e21 e22 ep0 ep1 ep2
  rw [sum_lag_moment, e0, e10, e11, e12, e20, e21, e22, ep0, ep1, ep2]
  simp only [Mat3.quadForm, InertiaTensor.assembleInertia, Vec3.dot]
  rw [hmass, ← hrx, ← hry, ← hrz]
  ring

namespace InertiaTensor

/-- C7: for every accepted mesh whose accumulated volume integrals are the
moments of a genuine nonnegative mass distribution (which is what it means
for the input to be a valid closed, positively-oriented, positive-volume
solid), the `body_inertia_tensor_` produced by `setBody` is symmetric by
construction and positive semi-definite. -/
theorem setBody_tensor_symmetric_psd (mesh : SurfaceMesh) (scale : Vec3)
    (density : ℚ) (s₀ : InertiaTensor) (pts : List (ℚ × Vec3))
    (h : (setBody mesh scale density s₀).isOk = true)
    (hr : Realizes pts density (compVolumeIntegrals (mkPolyhedron mesh scale) s₀)) :
    (∀ i j, (okState (setBody mesh scale density s₀)).body_inertia_tensor_.get i j
        = (okState (setBody mesh scale density s₀)).body_inertia_tensor_.get j i) ∧
    ∀ v, 0 ≤ (okState (setBody mesh scale density s₀)).body_inertia_tensor_.quadForm v := by
  rcases hE : setBody mesh scale density s₀ with e | t
  · rw [hE] at h
    simp [Except.isOk, Except.toBool] at h
  · simp only [setBody] at hE
    split at hE
    · exact absurd hE (by simp)
    · split at hE
      · exact absurd hE (by simp)
      · rename_i hT0le
        injection hE with ht
        subst ht
        have hT0pos : 0 < (compVolumeIntegrals (mkPolyhedron mesh scale) s₀).T0 :=
          not_le.mp hT0le
        constructor
        · intro i j
          fin_cases i <;> fin_cases j <;> rfl
        · intro v
          have key := quadForm_assemble density
            (density * (compVolumeIntegrals (mkPolyhedron mesh scale) s₀).T0)
            ⟨(compVolumeIntegrals (mkPolyhedron mesh scale) s₀).T1.x
                / (compVolumeIntegrals (mkPolyhedron mesh scale) s₀).T0,
              (compVolumeIntegrals (mkPolyhedron mesh scale) s₀).T1.y
                / (compVolumeIntegrals (mkPolyhedron mesh scale) s₀).T0,
              (compVolumeIntegrals (mkPolyhedron mesh scale) s₀).T1.z
                / (compVolumeIntegrals (mkPolyhedron mesh scale) s₀).T0⟩
            (compVolumeIntegrals (mkPolyhedron mesh scale) s₀) pts v hr rfl
            (div_mul_cancel₀ _ (ne_of_gt hT0pos))
            (div_mul_cancel₀ _ (ne_of_gt hT0pos))
            (div_mul_cancel₀ _ (ne_of_gt hT0pos))
          calc (0 : ℚ)
              ≤ (pts.map fun q => q.1 * lagrangeGap
                  (q.2.sub ⟨(compVolumeIntegrals (mkPolyhedron mesh scale) s₀).T1.x
                      / (compVolumeIntegrals (mkPolyhedron mesh scale) s₀).T0,
                    (compVolumeIntegrals (mkPolyhedron mesh scale) s₀).T1.y
                      / (compVolumeIntegrals (mkPolyhedron mesh scale) s₀).T0,
                    (compVolumeIntegrals (mkPolyhedron mesh scale) s₀).T1.z
                      / (compVolumeIntegrals (mkPolyhedron mesh scale) s₀).T0⟩) v).sum :=
                sum_lag_nonneg pts _ v hr.1
            _ = _ := key.symm

unseal Rat.add Rat.mul Rat.inv Rat.sub in
/-- Witness for `setBody_tensor_symmetric_psd`: the standard tetrahedron is
accepted and its accumulated moments are realized by the concrete
nonnegative five-point quadrature `tetraPts`, so its body tensor is
symmetric and positive semi-definite. -/
theorem setBody_tensor_symmetric_psd_witness :
    (setBody tetraMesh unitScale 1 InertiaTensor.init).isOk = true ∧
    Realizes tetraPts 1 (compVolumeIntegrals (mkPolyhedron tetraMesh unitScale)
      InertiaTensor.init) ∧
    ((∀ i j, (okState (setBody tetraMesh unitScale 1 InertiaTensor.init)).body_inertia_tensor_.get i j
        = (okState (setBody tetraMesh unitScale 1 InertiaTensor.init)).body_inertia_tensor_.get j i) ∧
    ∀ v, 0 ≤ (okState (setBody tetraMesh unitScale 1
        InertiaTensor.init)).body_inertia_tensor_.quadForm v) := by
  have h1 : (setBody tetraMesh unitScale 1 InertiaTensor.init).isOk = true := by decide
  have h2 : Realizes tetraPts 1 (compVolumeIntegrals (mkPolyhedron tetraMesh unitScale)
      InertiaTensor.init) := by decide
  exact ⟨h1, h2, setBody_tensor_symmetric_psd tetraMesh unitScale 1 InertiaTensor.init
    tetraPts h1 h2⟩

end InertiaTensor

end Physika
